import Mathlib

/-!
Shallow embedding of `src/index.js` (reg-bot): a domain-registration client
built from a retrying request executor (`performRequest`), request builders
(`checkDomainAvailability`, `registerDomain`), a parallel check phase
(`performMultipleChecks`) and two orchestrators (`registerSingleDomain`,
`registerMultipleDomains`).  Effects (transport attempts, logger calls,
retry delays) are made explicit as an event trace, in program order; the
network is a deterministic oracle mapping a request and an attempt number
to an outcome.
-/

namespace RegBot

/-- Retry configuration (src/index.js lines 26-27): `MAX_RETRIES` and
`retryDelay` in milliseconds. -/
structure Config where
  maxRetries : Nat
  retryDelay : Nat
deriving DecidableEq, Repr

/-- An axios request descriptor as built by `checkDomainAvailability` and
`registerDomain`: method, url, query parameters and post body, the latter
two modeled as association lists of string-valued fields. -/
structure Request where
  method : String
  url : String
  params : List (String × String)
  data : List (String × String)
deriving DecidableEq, Repr

/-- A response body (`response.data`): an object with string-valued fields. -/
abbrev Resp := List (String × String)

/-- Observable events of a run, in program order.
`attempt req n` is the n-th (0-based) transport attempt for `req`;
`logAttemptFail n msg` is `logger.error` of "Request failed (attempt n): msg";
`logExhausted m msg` is `logger.error` of "Failed after m retries: msg";
`delay ms` is the `setTimeout` suspension between attempts;
`logInfo` / `logError` are the orchestrator-level logger calls. -/
inductive Event where
  | attempt (req : Request) (n : Nat)
  | logAttemptFail (n : Nat) (msg : String)
  | logExhausted (maxAttempts : Nat) (msg : String)
  | delay (ms : Nat)
  | logInfo (msg : String)
  | logError (msg : String)
deriving DecidableEq, Repr

/-- Transport oracle for one fixed request: the outcome of its n-th attempt
(either the parsed `response.data`, or the thrown error's message). -/
abbrev Transport := Nat → Except String Resp

/-- The retry loop of `performRequest` (src/index.js lines 30-46), unrolled on
`fuel` (= `maxRetries - retryCount` at entry).  `Except.ok none` models the
`undefined` value the JS function returns when the `while` guard fails without
a `return` or a `throw` (only possible when `maxRetries = 0`);
`Except.error msg` models a thrown `Error` with message `msg`. -/
def performRequestGo (cfg : Config) (tr : Transport) (req : Request) :
    Nat → Nat → Except String (Option Resp) × List Event
  | 0, _ => (Except.ok none, [])
  | fuel + 1, rc =>
    if rc < cfg.maxRetries then
      match tr rc with
      | Except.ok resp => (Except.ok (some resp), [Event.attempt req rc])
      | Except.error msg =>
        if cfg.maxRetries ≤ rc + 1 then
          (Except.error ("Failed after " ++ toString cfg.maxRetries ++ " retries: " ++ msg),
           [Event.attempt req rc, Event.logAttemptFail (rc + 1) msg,
            Event.logExhausted cfg.maxRetries msg])
        else
          let rest := performRequestGo cfg tr req fuel (rc + 1)
          (rest.1, Event.attempt req rc :: Event.logAttemptFail (rc + 1) msg ::
            Event.delay cfg.retryDelay :: rest.2)
    else (Except.ok none, [])

/-- Model of `performRequest(requestConfig)` (src/index.js lines 30-46): start the
retry loop at `retryCount = 0`; the loop runs at most `maxRetries` times. -/
def performRequest (cfg : Config) (tr : Transport) (req : Request) :
    Except String (Option Resp) × List Event :=
  performRequestGo cfg tr req cfg.maxRetries 0

/-- JS `parseInt(env, 10) || dflt` (src/index.js lines 26-27): the
environment variable is modeled after parsing (`none` = unset or not a
number, i.e. `NaN`); `||` falls back on the default when the left side is
falsy, so an explicit 0 is also replaced by the default. -/
def jsOrDefault (v : Option Nat) (dflt : Nat) : Nat :=
  match v with
  | none => dflt
  | some n => if n = 0 then dflt else n

/-- The configuration read at module load (src/index.js lines 26-27) from
`RETRY_DELAY` and `MAX_RETRIES`. -/
def mkConfig (retryEnv maxEnv : Option Nat) : Config :=
  { maxRetries := jsOrDefault maxEnv 5, retryDelay := jsOrDefault retryEnv 200 }

/-- The configuration with no environment overrides supplied. -/
def defaultConfig : Config := mkConfig none none

/-- Ambient process state: the credentials read from the environment, the
retry configuration, and the network as a deterministic oracle. -/
structure World where
  apiKey : String
  userId : String
  cfg : Config
  transport : Request → Nat → Except String Resp

/-- A JS object is modeled by its field-assignment sequence, written left to
right as in an object literal (spread fields included); lookup returns the
value of the last assignment to the key, so later fields override earlier
ones exactly as in the source's literals. -/
def objGet (obj : List (String × String)) (k : String) : Option String :=
  obj.foldl (fun acc p => if p.1 == k then some p.2 else acc) none

/-- The request built by `checkDomainAvailability` (src/index.js lines 49-60):
GET /domains/check with the domain and the credentials as query params. -/
def checkRequest (w : World) (domain : String) : Request :=
  { method := "get", url := "/domains/check",
    params := [("domain", domain), ("apikey", w.apiKey), ("user", w.userId)],
    data := [] }

/-- Model of `checkDomainAvailability(domain)` (src/index.js lines 49-60): build the
check request and submit it through `performRequest`. -/
def checkDomainAvailability (w : World) (domain : String) :
    Except String (Option Resp) × List Event :=
  performRequest w.cfg (w.transport (checkRequest w domain)) (checkRequest w domain)

/-- The request built by `registerDomain` (src/index.js lines 63-75):
POST /domains/register whose body is the object literal
writing `domain`, `apikey`, `user` first and then spreading
`registrationDetails` over them. -/
def registerRequest (w : World) (domain : String) (details : List (String × String)) :
    Request :=
  { method := "post", url := "/domains/register", params := [],
    data := [("domain", domain), ("apikey", w.apiKey), ("user", w.userId)] ++ details }

/-- Model of `registerDomain(domain, registrationDetails)` (src/index.js lines 63-75):
build the registration request and submit it through `performRequest`. -/
def registerDomain (w : World) (domain : String) (details : List (String × String)) :
    Except String (Option Resp) × List Event :=
  performRequest w.cfg (w.transport (registerRequest w domain details))
    (registerRequest w domain details)

/-- Model of `Promise.all` result collection: all fulfilled yields the values in input
order; otherwise the rejection (determinized here to the first failing result
in input order). -/
def collectAll : List (Except String (Option Resp)) → Except String (List (Option Resp))
  | [] => Except.ok []
  | Except.error m :: _ => Except.error m
  | Except.ok a :: rest =>
    match collectAll rest with
    | Except.error m => Except.error m
    | Except.ok as => Except.ok (a :: as)

/-- Model of `performMultipleChecks(domains)` (src/index.js lines 78-81): start a check
for every domain and await them all.  Every check runs to completion, so the
trace contains all of their events; the collected value is `Promise.all`'s. -/
def performMultipleChecks (w : World) (domains : List String) :
    Except String (List (Option Resp)) × List Event :=
  let runs := domains.map (fun d => checkDomainAvailability w d)
  (collectAll (runs.map Prod.fst), (runs.map Prod.snd).flatten)

/-- JS template-literal rendering of an awaited response: a plain object
renders as "[object Object]" and `undefined` renders as "undefined". -/
def showRespOpt : Option Resp → String
  | some _ => "[object Object]"
  | none => "undefined"

/-- The message of the TypeError thrown by reading `.status` of `undefined`
(quotes around the field name elided). -/
def undefStatusMsg : String := "Cannot read properties of undefined (reading status)"

/-- The `try` body of `registerSingleDomain` (src/index.js lines 85-94):
check availability; on `status === "available"` register and log success,
otherwise log that the domain is not available; any thrown error (from the
check, from reading `.status` of `undefined`, or from the registration)
escapes this body. -/
def registerSingleBody (w : World) (domain : String) (details : List (String × String)) :
    Except String Unit × List Event :=
  let chk := checkDomainAvailability w domain
  match chk.1 with
  | Except.error m => (Except.error m, chk.2)
  | Except.ok none => (Except.error undefStatusMsg, chk.2)
  | Except.ok (some resp) =>
    if objGet resp "status" = some "available" then
      let reg := registerDomain w domain details
      match reg.1 with
      | Except.error m => (Except.error m, chk.2 ++ reg.2)
      | Except.ok r =>
        (Except.ok (), chk.2 ++ reg.2 ++
          [Event.logInfo ("Domain " ++ domain ++ " registered successfully: " ++
            showRespOpt r)])
    else
      (Except.ok (), chk.2 ++ [Event.logInfo ("Domain " ++ domain ++ " is not available.")])

/-- Model of `registerSingleDomain(domain, registrationDetails)` (src/index.js lines
84-98): the try body wrapped in the catch that logs the error tagged with the
domain; the function itself always returns normally (with `undefined`). -/
def registerSingleDomain (w : World) (domain : String) (details : List (String × String)) :
    Except String Unit × List Event :=
  let b := registerSingleBody w domain details
  match b.1 with
  | Except.ok _ => (Except.ok (), b.2)
  | Except.error m =>
    (Except.ok (), b.2 ++ [Event.logError ("Error registering domain " ++ domain ++ ": " ++ m)])

/-- One iteration of the registration loop of `registerMultipleDomains`
(src/index.js lines 103-113) for a domain and its already-settled check
result: the try body (read `.status`, register if available, log) with the
catch that logs the error tagged with the domain.  It always completes. -/
def regLoopStep (w : World) (details : List (String × String)) (domain : String)
    (result : Option Resp) : List Event :=
  match result with
  | none =>
    [Event.logError ("Error registering domain " ++ domain ++ ": " ++ undefStatusMsg)]
  | some resp =>
    if objGet resp "status" = some "available" then
      let reg := registerDomain w domain details
      match reg.1 with
      | Except.error m =>
        reg.2 ++ [Event.logError ("Error registering domain " ++ domain ++ ": " ++ m)]
      | Except.ok r =>
        reg.2 ++ [Event.logInfo ("Domain " ++ domain ++ " registered successfully: " ++
          showRespOpt r)]
    else [Event.logInfo ("Domain " ++ domain ++ " is not available.")]

/-- The registration loop of `registerMultipleDomains` (src/index.js lines
103-113): strictly sequential, in input order, over the domains paired with
their check results. -/
def regLoop (w : World) (details : List (String × String)) :
    List (String × Option Resp) → List Event
  | [] => []
  | (d, r) :: rest => regLoopStep w details d r ++ regLoop w details rest

/-- Model of `registerMultipleDomains(domains, registrationDetails)` (src/index.js
lines 101-115): await all checks (this `await` is outside any try/catch, so a
rejection propagates), then run the registration loop; when all checks are
fulfilled the results list has the same length as the domain list, so pairing
by `zip` is the JS indexed loop. -/
def registerMultipleDomains (w : World) (domains : List String)
    (details : List (String × String)) : Except String Unit × List Event :=
  let chk := performMultipleChecks w domains
  match chk.1 with
  | Except.error m => (Except.error m, chk.2)
  | Except.ok results => (Except.ok (), chk.2 ++ regLoop w details (domains.zip results))

/-- The settlement log one registration-loop step ends with, determined by
the domain and its already-settled check result (src/index.js lines
106-112). -/
def settleEventFor (w : World) (details : List (String × String)) (d : String)
    (r : Option Resp) : Event :=
  match r with
  | none => Event.logError ("Error registering domain " ++ d ++ ": " ++ undefStatusMsg)
  | some resp =>
    if objGet resp "status" = some "available" then
      match (registerDomain w d details).1 with
      | Except.error m => Event.logError ("Error registering domain " ++ d ++ ": " ++ m)
      | Except.ok r2 =>
        Event.logInfo ("Domain " ++ d ++ " registered successfully: " ++ showRespOpt r2)
    else Event.logInfo ("Domain " ++ d ++ " is not available.")

/-- Is this event a transport attempt on the check endpoint? -/
def Event.isCheckAttempt : Event → Bool
  | .attempt req _ => req.url == "/domains/check"
  | _ => false

/-- Is this event a transport attempt on the registration endpoint? -/
def Event.isRegAttempt : Event → Bool
  | .attempt req _ => req.url == "/domains/register"
  | _ => false

/-- Is this event the first transport attempt (attempt 0) of a registration
call, i.e. the start of one `registerDomain` invocation? -/
def Event.isRegStart : Event → Bool
  | .attempt req n => req.url == "/domains/register" && n == 0
  | _ => false

/-- Is this event a per-attempt failure log of the retrying executor? -/
def Event.isAttemptFailLog : Event → Bool
  | .logAttemptFail _ _ => true
  | _ => false

/-- Is this event the terminal exhaustion log of the retrying executor? -/
def Event.isExhaustedLog : Event → Bool
  | .logExhausted _ _ => true
  | _ => false

/-- Is this event a retry delay? -/
def Event.isDelay : Event → Bool
  | .delay _ => true
  | _ => false

/-- Is this event an orchestrator-level log, i.e. the settlement of one
domain's registration decision (success, skip, or caught error)?  The
retrying executor itself emits only `attempt`, `logAttemptFail`,
`logExhausted` and `delay` events, so inside the orchestrators these logs
occur exactly once per settled domain, at the end of its step. -/
def Event.isSettleLog : Event → Bool
  | .logInfo _ => true
  | .logError _ => true
  | _ => false

/-! ### Concrete transports and worlds, used to evaluate the claims on
closed inputs -/

/-- A request used for concrete executor runs. -/
def probeRequest : Request :=
  { method := "get", url := "/domains/check",
    params := [("domain", "example.com"), ("apikey", "k"), ("user", "u")], data := [] }

/-- Transport failing once, then succeeding. -/
def failOnceTransport : Transport := fun n =>
  if n = 0 then Except.error "boom" else Except.ok [("status", "available")]

/-- Transport that always fails. -/
def alwaysFailTransport : Transport := fun _ => Except.error "boom"

/-- A world with one configured attempt whose transport always fails. -/
def failingWorld : World :=
  { apiKey := "k", userId := "u", cfg := ⟨1, 200⟩,
    transport := fun _ _ => Except.error "boom" }

/-- A world with two configured attempts where the availability check for
domain "a" always fails while every other request succeeds. -/
def mixedWorld : World :=
  { apiKey := "k", userId := "u", cfg := ⟨2, 200⟩,
    transport := fun req _ =>
      if req.url = "/domains/check" then
        if objGet req.params "domain" = some "a" then Except.error "boom"
        else Except.ok [("status", "available")]
      else Except.ok [("result", "success")] }

/-- A world with one configured attempt where every request succeeds: domain
"a" checks as available, every other domain as unavailable. -/
def availWorld : World :=
  { apiKey := "k", userId := "u", cfg := ⟨1, 200⟩,
    transport := fun req _ =>
      if req.url = "/domains/check" then
        if objGet req.params "domain" = some "a" then Except.ok [("status", "available")]
        else Except.ok [("status", "unavailable")]
      else Except.ok [("result", "success")] }

/-! ### Lemmas about the retry loop -/

/-- Unfolding the loop: the current attempt succeeds. -/
theorem performRequestGo_step_ok (cfg : Config) (tr : Transport) (req : Request)
    (fuel rc : Nat) (resp : Resp) (h1 : rc < cfg.maxRetries) (h : tr rc = Except.ok resp) :
    performRequestGo cfg tr req (fuel + 1) rc =
      (Except.ok (some resp), [Event.attempt req rc]) := by
  simp [performRequestGo, h1, h]

/-- Unfolding the loop: the current attempt fails and it was the last one. -/
theorem performRequestGo_step_exhaust (cfg : Config) (tr : Transport) (req : Request)
    (fuel rc : Nat) (msg : String) (h1 : rc < cfg.maxRetries)
    (h2 : cfg.maxRetries ≤ rc + 1) (h : tr rc = Except.error msg) :
    performRequestGo cfg tr req (fuel + 1) rc =
      (Except.error ("Failed after " ++ toString cfg.maxRetries ++ " retries: " ++ msg),
       [Event.attempt req rc, Event.logAttemptFail (rc + 1) msg,
        Event.logExhausted cfg.maxRetries msg]) := by
  simp [performRequestGo, h1, h2, h]

/-- Unfolding the loop: the current attempt fails and attempts remain, so the
loop logs, delays, and retries. -/
theorem performRequestGo_step_retry (cfg : Config) (tr : Transport) (req : Request)
    (fuel rc : Nat) (msg : String) (h1 : rc < cfg.maxRetries)
    (h2 : ¬ cfg.maxRetries ≤ rc + 1) (h : tr rc = Except.error msg) :
    performRequestGo cfg tr req (fuel + 1) rc =
      ((performRequestGo cfg tr req fuel (rc + 1)).1,
       Event.attempt req rc :: Event.logAttemptFail (rc + 1) msg ::
         Event.delay cfg.retryDelay :: (performRequestGo cfg tr req fuel (rc + 1)).2) := by
  simp [performRequestGo, h1, h2, h]

/-- Unfolding the loop: the while guard is false, so the JS function returns
`undefined` without any attempt. -/
theorem performRequestGo_step_stop (cfg : Config) (tr : Transport) (req : Request)
    (fuel rc : Nat) (h1 : ¬ rc < cfg.maxRetries) :
    performRequestGo cfg tr req (fuel + 1) rc = (Except.ok none, []) := by
  simp [performRequestGo, h1]

/-- Shape of every event the retry loop can emit from state `rc`: a transport
attempt for the loop's own request with index at least `rc`, a per-attempt
failure log, the terminal log for the configured maximum, or the fixed
configured delay. -/
theorem performRequestGo_events (cfg : Config) (tr : Transport) (req : Request) :
    ∀ fuel rc, ∀ e ∈ (performRequestGo cfg tr req fuel rc).2,
      (∃ n, rc ≤ n ∧ e = Event.attempt req n) ∨
      (∃ n m, e = Event.logAttemptFail n m) ∨
      (∃ m, e = Event.logExhausted cfg.maxRetries m) ∨
      e = Event.delay cfg.retryDelay := by
  intro fuel
  induction fuel with
  | zero => intro rc e he; simp [performRequestGo] at he
  | succ f ih =>
    intro rc e he
    by_cases h1 : rc < cfg.maxRetries
    · cases htr : tr rc with
      | ok resp =>
        rw [performRequestGo_step_ok cfg tr req f rc resp h1 htr] at he
        simp at he
        exact Or.inl ⟨rc, Nat.le_refl rc, he⟩
      | error msg =>
        by_cases h2 : cfg.maxRetries ≤ rc + 1
        · rw [performRequestGo_step_exhaust cfg tr req f rc msg h1 h2 htr] at he
          simp at he
          rcases he with he | he | he
          · exact Or.inl ⟨rc, Nat.le_refl rc, he⟩
          · exact Or.inr (Or.inl ⟨rc + 1, msg, he⟩)
          · exact Or.inr (Or.inr (Or.inl ⟨msg, he⟩))
        · rw [performRequestGo_step_retry cfg tr req f rc msg h1 h2 htr] at he
          simp at he
          rcases he with he | he | he | he
          · exact Or.inl ⟨rc, Nat.le_refl rc, he⟩
          · exact Or.inr (Or.inl ⟨rc + 1, msg, he⟩)
          · exact Or.inr (Or.inr (Or.inr he))
          · rcases ih (rc + 1) e he with ⟨n, hn, hee⟩ | h | h | h
            · exact Or.inl ⟨n, by omega, hee⟩
            · exact Or.inr (Or.inl h)
            · exact Or.inr (Or.inr (Or.inl h))
            · exact Or.inr (Or.inr (Or.inr h))
    · rw [performRequestGo_step_stop cfg tr req f rc h1] at he
      simp at he

/-- A call that fails exactly `k < maxRetries` times and then succeeds
returns the successful body, logs exactly `k` per-attempt failures and no
terminal failure, and waits exactly `k` delays. -/
theorem performRequestGo_succeeds (cfg : Config) (tr : Transport) (req : Request) :
    ∀ (k rc fuel : Nat) (resp : Resp),
      rc + k < cfg.maxRetries → k < fuel →
      (∀ i, i < k → ∃ m, tr (rc + i) = Except.error m) →
      tr (rc + k) = Except.ok resp →
      (performRequestGo cfg tr req fuel rc).1 = Except.ok (some resp) ∧
      (performRequestGo cfg tr req fuel rc).2.countP Event.isAttemptFailLog = k ∧
      (performRequestGo cfg tr req fuel rc).2.countP Event.isDelay = k ∧
      (performRequestGo cfg tr req fuel rc).2.countP Event.isExhaustedLog = 0 := by
  intro k
  induction k with
  | zero =>
    intro rc fuel resp h1 h2 _ hsucc
    obtain ⟨f, rfl⟩ : ∃ f, fuel = f + 1 := ⟨fuel - 1, by omega⟩
    rw [Nat.add_zero] at h1 hsucc
    rw [performRequestGo_step_ok cfg tr req f rc resp h1 hsucc]
    simp [Event.isAttemptFailLog, Event.isDelay, Event.isExhaustedLog]
  | succ k ih =>
    intro rc fuel resp h1 h2 hfail hsucc
    obtain ⟨f, rfl⟩ : ∃ f, fuel = f + 1 := ⟨fuel - 1, by omega⟩
    obtain ⟨m, hm⟩ := hfail 0 (Nat.succ_pos k)
    rw [Nat.add_zero] at hm
    have hrc : rc < cfg.maxRetries := by omega
    have hnt : ¬ cfg.maxRetries ≤ rc + 1 := by omega
    have hrest := ih (rc + 1) f resp (by omega) (by omega)
      (fun i hi => by
        have h := hfail (i + 1) (by omega)
        rwa [show rc + (i + 1) = rc + 1 + i by omega] at h)
      (by rwa [show rc + 1 + k = rc + (k + 1) by omega])
    rw [performRequestGo_step_retry cfg tr req f rc m hrc hnt hm]
    refine ⟨hrest.1, ?_, ?_, ?_⟩
    · have := hrest.2.1
      simp [List.countP_cons, Event.isAttemptFailLog]
      omega
    · have := hrest.2.2.1
      simp [List.countP_cons, Event.isDelay]
      omega
    · have := hrest.2.2.2
      simp [List.countP_cons, Event.isExhaustedLog, -List.countP_eq_zero]
      omega

/-- A call all of whose `maxRetries` attempts fail throws the exhaustion
error carrying the last attempt's message, logs one per-attempt failure per
attempt and exactly one terminal failure, and waits a delay between
consecutive attempts only. -/
theorem performRequestGo_exhausts (cfg : Config) (tr : Transport) (req : Request)
    (msgs : Nat → String)
    (hfail : ∀ i, i < cfg.maxRetries → tr i = Except.error (msgs i)) :
    ∀ fuel rc, rc + fuel = cfg.maxRetries → 0 < fuel →
      (performRequestGo cfg tr req fuel rc).1 =
        Except.error ("Failed after " ++ toString cfg.maxRetries ++ " retries: " ++
          msgs (cfg.maxRetries - 1)) ∧
      (performRequestGo cfg tr req fuel rc).2.countP Event.isAttemptFailLog = fuel ∧
      (performRequestGo cfg tr req fuel rc).2.countP Event.isExhaustedLog = 1 ∧
      (performRequestGo cfg tr req fuel rc).2.countP Event.isDelay = fuel - 1 := by
  intro fuel
  induction fuel with
  | zero => intro rc _ h2; omega
  | succ f ih =>
    intro rc hsum _
    have hrc : rc < cfg.maxRetries := by omega
    have hm := hfail rc hrc
    rcases Nat.eq_zero_or_pos f with hf | hf
    · subst hf
      have hlast : cfg.maxRetries - 1 = rc := by omega
      rw [performRequestGo_step_exhaust cfg tr req 0 rc (msgs rc) hrc (by omega) hm, hlast]
      simp [Event.isAttemptFailLog, Event.isDelay, Event.isExhaustedLog]
    · have hnt : ¬ cfg.maxRetries ≤ rc + 1 := by omega
      have hrest := ih (rc + 1) (by omega) hf
      rw [performRequestGo_step_retry cfg tr req f rc (msgs rc) hrc hnt hm]
      refine ⟨hrest.1, ?_, ?_, ?_⟩
      · have := hrest.2.1
        simp [List.countP_cons, Event.isAttemptFailLog]
        omega
      · have := hrest.2.2.1
        simp [List.countP_cons, Event.isExhaustedLog]
        omega
      · have := hrest.2.2.2
        simp [List.countP_cons, Event.isDelay]
        omega

/-- Every event of one executor call is an attempt for its own request, a
per-attempt failure log, the terminal log, or the fixed configured delay. -/
theorem performRequest_events (cfg : Config) (tr : Transport) (req : Request) :
    ∀ e ∈ (performRequest cfg tr req).2,
      (∃ n, e = Event.attempt req n) ∨
      (∃ n m, e = Event.logAttemptFail n m) ∨
      (∃ m, e = Event.logExhausted cfg.maxRetries m) ∨
      e = Event.delay cfg.retryDelay := by
  intro e he
  rcases performRequestGo_events cfg tr req cfg.maxRetries 0 e he with ⟨n, _, h⟩ | h | h | h
  · exact Or.inl ⟨n, h⟩
  · exact Or.inr (Or.inl h)
  · exact Or.inr (Or.inr (Or.inl h))
  · exact Or.inr (Or.inr (Or.inr h))

/-- When at least one attempt is configured, an executor call starts with
attempt 0 for its request. -/
theorem performRequest_first (cfg : Config) (tr : Transport) (req : Request)
    (h : 0 < cfg.maxRetries) :
    ∃ t, (performRequest cfg tr req).2 = Event.attempt req 0 :: t := by
  obtain ⟨f, hf⟩ : ∃ f, cfg.maxRetries = f + 1 := ⟨cfg.maxRetries - 1, by omega⟩
  show ∃ t, (performRequestGo cfg tr req cfg.maxRetries 0).2 = Event.attempt req 0 :: t
  rw [hf]
  cases htr : tr 0 with
  | ok resp =>
    rw [performRequestGo_step_ok cfg tr req f 0 resp h htr]
    exact ⟨[], rfl⟩
  | error msg =>
    by_cases h2 : cfg.maxRetries ≤ 0 + 1
    · rw [performRequestGo_step_exhaust cfg tr req f 0 msg h h2 htr]
      exact ⟨_, rfl⟩
    · rw [performRequestGo_step_retry cfg tr req f 0 msg h h2 htr]
      exact ⟨_, rfl⟩

/-- Started at a positive retry count, the loop emits no attempt-0 event, so
it contributes no registration-start event. -/
theorem performRequestGo_regStart_pos (cfg : Config) (tr : Transport) (req : Request)
    (fuel rc : Nat) (hrc : 0 < rc) :
    (performRequestGo cfg tr req fuel rc).2.countP Event.isRegStart = 0 := by
  rw [List.countP_eq_zero]
  intro e he
  rcases performRequestGo_events cfg tr req fuel rc e he with
    ⟨n, hn, rfl⟩ | ⟨n, m, rfl⟩ | ⟨m, rfl⟩ | rfl
  · simp [Event.isRegStart]
    intro _
    omega
  · simp [Event.isRegStart]
  · simp [Event.isRegStart]
  · simp [Event.isRegStart]

/-- One executor call emits at most one attempt-0 event, hence at most one
registration start. -/
theorem performRequest_regStart_le_one (cfg : Config) (tr : Transport) (req : Request) :
    (performRequest cfg tr req).2.countP Event.isRegStart ≤ 1 := by
  show (performRequestGo cfg tr req cfg.maxRetries 0).2.countP Event.isRegStart ≤ 1
  rcases Nat.eq_zero_or_pos cfg.maxRetries with h | h
  · rw [h]
    simp [performRequestGo]
  · obtain ⟨f, hf⟩ : ∃ f, cfg.maxRetries = f + 1 := ⟨cfg.maxRetries - 1, by omega⟩
    rw [hf]
    cases htr : tr 0 with
    | ok resp =>
      rw [performRequestGo_step_ok cfg tr req f 0 resp h htr]
      exact List.countP_le_length _
    | error msg =>
      by_cases h2 : cfg.maxRetries ≤ 0 + 1
      · rw [performRequestGo_step_exhaust cfg tr req f 0 msg h h2 htr]
        simp [List.countP_cons, Event.isRegStart]
        split <;> simp
      · rw [performRequestGo_step_retry cfg tr req f 0 msg h h2 htr]
        simp [List.countP_cons, Event.isRegStart,
          performRequestGo_regStart_pos cfg tr req f 1 Nat.one_pos]
        split <;> simp

/-- An executor call never emits an orchestrator-level log. -/
theorem performRequest_no_settle (cfg : Config) (tr : Transport) (req : Request) :
    ∀ e ∈ (performRequest cfg tr req).2, e.isSettleLog = false := by
  intro e he
  rcases performRequest_events cfg tr req e he with ⟨n, rfl⟩ | ⟨n, m, rfl⟩ | ⟨m, rfl⟩ | rfl <;> rfl

/-- Events of one availability check: never a registration attempt, never a
registration start, never an orchestrator-level log. -/
theorem checkDomainAvailability_events (w : World) (d : String) :
    ∀ e ∈ (checkDomainAvailability w d).2,
      e.isRegAttempt = false ∧ e.isRegStart = false ∧ e.isSettleLog = false := by
  intro e he
  rcases performRequest_events w.cfg (w.transport (checkRequest w d)) (checkRequest w d)
      e he with ⟨n, rfl⟩ | ⟨n, m, rfl⟩ | ⟨m, rfl⟩ | rfl
  · exact ⟨rfl, rfl, rfl⟩
  · exact ⟨rfl, rfl, rfl⟩
  · exact ⟨rfl, rfl, rfl⟩
  · exact ⟨rfl, rfl, rfl⟩

/-- Events of the whole check phase: never a registration attempt, never a
registration start, never an orchestrator-level log. -/
theorem performMultipleChecks_events (w : World) (ds : List String) :
    ∀ e ∈ (performMultipleChecks w ds).2,
      e.isRegAttempt = false ∧ e.isRegStart = false ∧ e.isSettleLog = false := by
  intro e he
  simp only [performMultipleChecks] at he
  rw [List.mem_flatten] at he
  obtain ⟨l, hl, hel⟩ := he
  rw [List.mem_map] at hl
  obtain ⟨run, hrun, rfl⟩ := hl
  rw [List.mem_map] at hrun
  obtain ⟨d, _, rfl⟩ := hrun
  exact checkDomainAvailability_events w d e hel

/-- Events of one registration call: never a check attempt, never an
orchestrator-level log. -/
theorem registerDomain_events (w : World) (d : String) (det : List (String × String)) :
    ∀ e ∈ (registerDomain w d det).2,
      e.isCheckAttempt = false ∧ e.isSettleLog = false := by
  intro e he
  rcases performRequest_events w.cfg (w.transport (registerRequest w d det))
      (registerRequest w d det) e he with ⟨n, rfl⟩ | ⟨n, m, rfl⟩ | ⟨m, rfl⟩ | rfl
  · exact ⟨rfl, rfl⟩
  · exact ⟨rfl, rfl⟩
  · exact ⟨rfl, rfl⟩
  · exact ⟨rfl, rfl⟩

/-- When at least one attempt is configured, a registration call starts with
attempt 0 on the registration endpoint. -/
theorem registerDomain_first (w : World) (d : String) (det : List (String × String))
    (h : 0 < w.cfg.maxRetries) :
    ∃ t, (registerDomain w d det).2 = Event.attempt (registerRequest w d det) 0 :: t :=
  performRequest_first w.cfg (w.transport (registerRequest w d det))
    (registerRequest w d det) h

/-! ### Claims about the Retrying Executor -/

/-- Claim C1: for every call to the Retrying Executor (`performRequest`)
whose underlying transport attempts fail exactly `k` times with
`k < maxRetries` and then succeed, the executor returns the successful
response body, logs exactly `k` failure events (and no terminal failure
event), and waits exactly `k` fixed delays; in particular, when the first
attempt succeeds (`k = 0`), it returns the response with zero failure logs
and zero delays. -/
theorem claim1_fail_k_then_success (cfg : Config) (tr : Transport) (req : Request)
    (k : Nat) (resp : Resp)
    (hk : k < cfg.maxRetries)
    (hfail : ∀ i, i < k → ∃ m, tr i = Except.error m)
    (hsucc : tr k = Except.ok resp) :
    (performRequest cfg tr req).1 = Except.ok (some resp) ∧
    (performRequest cfg tr req).2.countP Event.isAttemptFailLog = k ∧
    (performRequest cfg tr req).2.countP Event.isDelay = k ∧
    (performRequest cfg tr req).2.countP Event.isExhaustedLog = 0 :=
  performRequestGo_succeeds cfg tr req k 0 cfg.maxRetries resp (by omega) hk
    (fun i hi => by simpa using hfail i hi) (by simpa using hsucc)

/-- Witness for C1: one failure then success under the default five attempts
returns the body with one failure log and one delay. -/
theorem claim1_fail_k_then_success_witness :
    (performRequest ⟨5, 200⟩ failOnceTransport probeRequest).1 =
      Except.ok (some [("status", "available")]) ∧
    (performRequest ⟨5, 200⟩ failOnceTransport probeRequest).2.countP
      Event.isAttemptFailLog = 1 ∧
    (performRequest ⟨5, 200⟩ failOnceTransport probeRequest).2.countP Event.isDelay = 1 ∧
    (performRequest ⟨5, 200⟩ failOnceTransport probeRequest).2.countP
      Event.isExhaustedLog = 0 :=
  claim1_fail_k_then_success ⟨5, 200⟩ failOnceTransport probeRequest 1
    [("status", "available")] (by decide)
    (fun i hi => ⟨"boom", by interval_cases i; rfl⟩) rfl

/-- Claim C2: for every call to the Retrying Executor in which all
`maxRetries` attempts fail, the call fails with the exhaustion error
embedding the most recent attempt's failure description, and exactly
`maxRetries` per-attempt failure events plus exactly one terminal failure
event are logged. -/
theorem claim2_exhausted_retries (cfg : Config) (tr : Transport) (req : Request)
    (msgs : Nat → String)
    (h0 : 0 < cfg.maxRetries)
    (hfail : ∀ i, i < cfg.maxRetries → tr i = Except.error (msgs i)) :
    (performRequest cfg tr req).1 =
      Except.error ("Failed after " ++ toString cfg.maxRetries ++ " retries: " ++
        msgs (cfg.maxRetries - 1)) ∧
    (performRequest cfg tr req).2.countP Event.isAttemptFailLog = cfg.maxRetries ∧
    (performRequest cfg tr req).2.countP Event.isExhaustedLog = 1 :=
  have h := performRequestGo_exhausts cfg tr req msgs hfail cfg.maxRetries 0 (by omega) h0
  ⟨h.1, h.2.1, h.2.2.1⟩

/-- Witness for C2: with two configured attempts that both fail, the call
fails with the exhaustion error carrying the last message, after two
per-attempt failure logs and one terminal log. -/
theorem claim2_exhausted_retries_witness :
    (performRequest ⟨2, 200⟩ alwaysFailTransport probeRequest).1 =
      Except.error "Failed after 2 retries: boom" ∧
    (performRequest ⟨2, 200⟩ alwaysFailTransport probeRequest).2.countP
      Event.isAttemptFailLog = 2 ∧
    (performRequest ⟨2, 200⟩ alwaysFailTransport probeRequest).2.countP
      Event.isExhaustedLog = 1 :=
  claim2_exhausted_retries ⟨2, 200⟩ alwaysFailTransport probeRequest
    (fun _ => "boom") (by decide) (fun i _ => rfl)

/-- Claim C7: within one call to the Retrying Executor every retry waits the
same fixed delay (every delay event carries the one configured interval, so
the wait never grows), and when no configuration overrides are supplied the
effective delay is 200 time-units and the effective maximum number of
attempts is 5. -/
theorem claim7_fixed_delay_and_defaults (cfg : Config) (tr : Transport) (req : Request)
    (e : Event) (he : e ∈ (performRequest cfg tr req).2) (hd : e.isDelay = true) :
    e = Event.delay cfg.retryDelay ∧
    defaultConfig.retryDelay = 200 ∧ defaultConfig.maxRetries = 5 := by
  refine ⟨?_, rfl, rfl⟩
  rcases performRequest_events cfg tr req e he with ⟨n, rfl⟩ | ⟨n, m, rfl⟩ | ⟨m, rfl⟩ | rfl
  · exact absurd hd (by simp [Event.isDelay])
  · exact absurd hd (by simp [Event.isDelay])
  · exact absurd hd (by simp [Event.isDelay])
  · rfl

/-- Witness for C7: the delay observed in a concrete two-attempt run is the
configured 200, and the defaults are as claimed. -/
theorem claim7_fixed_delay_and_defaults_witness :
    Event.delay 200 = Event.delay (Config.mk 2 200).retryDelay ∧
    defaultConfig.retryDelay = 200 ∧ defaultConfig.maxRetries = 5 :=
  claim7_fixed_delay_and_defaults ⟨2, 200⟩ failOnceTransport probeRequest
    (Event.delay 200) (by decide) rfl

/-! ### Claims about the request builders and single-domain orchestration -/

/-- Folding further assignments over an already-found value: the later
assignments win when present, otherwise the found value stands. -/
theorem objGet_foldl_some (l : List (String × String)) (k : String) :
    ∀ a : String,
      l.foldl (fun acc p => if p.1 == k then some p.2 else acc) (some a) =
        some ((objGet l k).getD a) := by
  induction l with
  | nil => intro a; rfl
  | cons hd tl ih =>
    intro a
    by_cases h : hd.1 == k
    · simp only [objGet, List.foldl_cons, if_pos h]
      rw [ih hd.2]
      simp
    · simp only [objGet, List.foldl_cons, if_neg h]
      exact ih a

/-- Lookup in the concatenation of two assignment sequences when the first
binds the key: the second sequence's last assignment overrides it when
present. -/
theorem objGet_append_some (l₁ l₂ : List (String × String)) (k a : String)
    (h : objGet l₁ k = some a) :
    objGet (l₁ ++ l₂) k = some ((objGet l₂ k).getD a) := by
  unfold objGet at h ⊢
  rw [List.foldl_append, h]
  exact objGet_foldl_some l₂ k a

/-- Claim C10: the body submitted by `registerDomain` writes the domain
argument and the fixed credentials first and then spreads the caller-supplied
details over them, so a details entry keyed "domain", "apikey" or "user"
silently overrides the corresponding argument or credential, and absent such
an entry the argument or credential stands. -/
theorem claim10_details_override_credentials (w : World) (d : String)
    (details : List (String × String)) :
    objGet (registerRequest w d details).data "domain" =
      some ((objGet details "domain").getD d) ∧
    objGet (registerRequest w d details).data "apikey" =
      some ((objGet details "apikey").getD w.apiKey) ∧
    objGet (registerRequest w d details).data "user" =
      some ((objGet details "user").getD w.userId) :=
  ⟨objGet_append_some [("domain", d), ("apikey", w.apiKey), ("user", w.userId)]
      details "domain" d rfl,
   objGet_append_some [("domain", d), ("apikey", w.apiKey), ("user", w.userId)]
      details "apikey" w.apiKey rfl,
   objGet_append_some [("domain", d), ("apikey", w.apiKey), ("user", w.userId)]
      details "user" w.userId rfl⟩

/-- Claim C4: `registerSingleDomain` never raises outward: whatever the body
throws (exhausted check, exhausted registration, or the TypeError on an
undefined result) is caught, the call returns normally, and the caught error
is logged last, tagged with the domain. -/
theorem claim4_registerSingleDomain_never_raises (w : World) (domain : String)
    (details : List (String × String)) :
    (registerSingleDomain w domain details).1 = Except.ok () ∧
    (∀ m, (registerSingleBody w domain details).1 = Except.error m →
      (registerSingleDomain w domain details).2.getLast? =
        some (Event.logError ("Error registering domain " ++ domain ++ ": " ++ m))) := by
  constructor
  · simp only [registerSingleDomain]
    cases hb : (registerSingleBody w domain details).1 with
    | ok u => rfl
    | error m => rfl
  · intro m hm
    simp only [registerSingleDomain]
    rw [hm]
    simp

/-- Witness for C4: with every transport attempt failing, the exhausted check
is caught, the call returns normally, and the error is logged tagged with the
domain. -/
theorem claim4_registerSingleDomain_never_raises_witness :
    (registerSingleDomain failingWorld "example.com" []).1 = Except.ok () ∧
    (registerSingleDomain failingWorld "example.com" []).2.getLast? =
      some (Event.logError
        "Error registering domain example.com: Failed after 1 retries: boom") := by
  have h := claim4_registerSingleDomain_never_raises failingWorld "example.com" []
  exact ⟨h.1, h.2 "Failed after 1 retries: boom" rfl⟩

/-- Claim C8: `registerMultipleDomains` applied to the empty domain list
completes normally with an empty event trace: no availability check and no
registration request is issued. -/
theorem claim8_empty_batch (w : World) (details : List (String × String)) :
    registerMultipleDomains w [] details = (Except.ok (), []) ∧
    (registerMultipleDomains w [] details).2.countP Event.isCheckAttempt = 0 ∧
    (registerMultipleDomains w [] details).2.countP Event.isRegAttempt = 0 :=
  ⟨rfl, rfl, rfl⟩

/-! ### Lemmas about the registration loop -/

/-- A loop step never touches the check endpoint. -/
theorem regLoopStep_no_checkAttempt (w : World) (det : List (String × String))
    (d : String) (r : Option Resp) :
    ∀ e ∈ regLoopStep w det d r, e.isCheckAttempt = false := by
  intro e he
  cases r with
  | none =>
    simp only [regLoopStep] at he
    simp at he
    subst he
    rfl
  | some resp =>
    by_cases hav : objGet resp "status" = some "available"
    · simp only [regLoopStep, if_pos hav] at he
      cases hreg : (registerDomain w d det).1 with
      | ok r2 =>
        rw [hreg] at he
        simp at he
        rcases he with he | he
        · exact (registerDomain_events w d det e he).1
        · subst he; rfl
      | error m =>
        rw [hreg] at he
        simp at he
        rcases he with he | he
        · exact (registerDomain_events w d det e he).1
        · subst he; rfl
    · simp only [regLoopStep, if_neg hav] at he
      simp at he
      subst he
      rfl

/-- The settlement logs of one loop step: exactly the one settlement event
determined by the domain and its check result, at the end of the step. -/
theorem regLoopStep_filter_settle (w : World) (det : List (String × String))
    (d : String) (r : Option Resp) :
    (regLoopStep w det d r).filter Event.isSettleLog = [settleEventFor w det d r] := by
  cases r with
  | none => rfl
  | some resp =>
    by_cases hav : objGet resp "status" = some "available"
    · simp only [regLoopStep, settleEventFor, if_pos hav]
      have hreg2 : (registerDomain w d det).2.filter Event.isSettleLog = [] := by
        rw [List.filter_eq_nil_iff]
        intro e he
        simp [(registerDomain_events w d det e he).2]
      cases hreg : (registerDomain w d det).1 with
      | ok r2 => rw [List.filter_append, hreg2]; rfl
      | error m => rw [List.filter_append, hreg2]; rfl
    · simp only [regLoopStep, settleEventFor, if_neg hav]
      rfl

/-- One loop step starts at most one registration. -/
theorem regLoopStep_regStart_le_one (w : World) (det : List (String × String))
    (d : String) (r : Option Resp) :
    (regLoopStep w det d r).countP Event.isRegStart ≤ 1 := by
  cases r with
  | none => simp [regLoopStep, Event.isRegStart]
  | some resp =>
    by_cases hav : objGet resp "status" = some "available"
    · simp only [regLoopStep, if_pos hav]
      have hb := performRequest_regStart_le_one w.cfg
        (w.transport (registerRequest w d det)) (registerRequest w d det)
      cases hreg : (registerDomain w d det).1 with
      | ok r2 =>
        rw [List.countP_append]
        simp [Event.isRegStart]
        exact hb
      | error m =>
        rw [List.countP_append]
        simp [Event.isRegStart]
        exact hb
    · simp [regLoopStep, if_neg hav, Event.isRegStart]

/-- One loop step settles what it starts: its registration starts are bounded
by its settlement logs. -/
theorem regLoopStep_regStart_le_settle (w : World) (det : List (String × String))
    (d : String) (r : Option Resp) :
    (regLoopStep w det d r).countP Event.isRegStart ≤
      (regLoopStep w det d r).countP Event.isSettleLog := by
  have h1 := regLoopStep_regStart_le_one w det d r
  have h2 : (regLoopStep w det d r).countP Event.isSettleLog = 1 := by
    rw [List.countP_eq_length_filter, regLoopStep_filter_settle]
    rfl
  omega

/-- The loop never touches the check endpoint. -/
theorem regLoop_no_checkAttempt (w : World) (det : List (String × String)) :
    ∀ pairs, ∀ e ∈ regLoop w det pairs, e.isCheckAttempt = false := by
  intro pairs
  induction pairs with
  | nil => intro e he; simp [regLoop] at he
  | cons hd tl ih =>
    rcases hd with ⟨d, r⟩
    intro e he
    simp only [regLoop] at he
    rcases List.mem_append.mp he with h | h
    · exact regLoopStep_no_checkAttempt w det d r e h
    · exact ih e h

/-- The settlement logs of the whole loop: one per domain, in input order,
each determined by that domain and its check result. -/
theorem regLoop_filter_settle (w : World) (det : List (String × String)) :
    ∀ pairs, (regLoop w det pairs).filter Event.isSettleLog =
      pairs.map (fun p => settleEventFor w det p.1 p.2) := by
  intro pairs
  induction pairs with
  | nil => rfl
  | cons hd tl ih =>
    rcases hd with ⟨d, r⟩
    simp only [regLoop, List.map_cons]
    rw [List.filter_append, regLoopStep_filter_settle, ih]
    rfl

/-- Prefix invariant of the loop trace: at every point, the number of
registrations started exceeds the number settled by at most one, i.e. the
loop never has two unsettled registrations in flight. -/
theorem regLoop_prefix_invariant (w : World) (det : List (String × String)) :
    ∀ pairs (n : Nat),
      ((regLoop w det pairs).take n).countP Event.isRegStart ≤
        ((regLoop w det pairs).take n).countP Event.isSettleLog + 1 := by
  intro pairs
  induction pairs with
  | nil => intro n; simp [regLoop]
  | cons hd tl ih =>
    rcases hd with ⟨d, r⟩
    intro n
    simp only [regLoop]
    rw [List.take_append_eq_append_take, List.countP_append, List.countP_append]
    by_cases hn : n ≤ (regLoopStep w det d r).length
    · have h0 : (regLoop w det tl).take (n - (regLoopStep w det d r).length) = [] := by
        have he : n - (regLoopStep w det d r).length = 0 := by omega
        rw [he]
        rfl
      rw [h0]
      have hle : ((regLoopStep w det d r).take n).countP Event.isRegStart ≤ 1 :=
        le_trans (((List.take_sublist n (regLoopStep w det d r))).countP_le _)
          (regLoopStep_regStart_le_one w det d r)
      simp only [List.countP_nil]
      omega
    · have hfull : (regLoopStep w det d r).take n = regLoopStep w det d r :=
        List.take_of_length_le (by omega)
      rw [hfull]
      have h1 := regLoopStep_regStart_le_settle w det d r
      have h2 := ih (n - (regLoopStep w det d r).length)
      omega

/-- In a two-phase trace whose first block has no registration attempt and
whose second block has no check attempt, every check attempt precedes every
registration attempt. -/
theorem two_phase_order (A B : List Event)
    (hA : ∀ e ∈ A, e.isRegAttempt = false)
    (hB : ∀ e ∈ B, e.isCheckAttempt = false) :
    ∀ i j (hi : i < (A ++ B).length) (hj : j < (A ++ B).length),
      ((A ++ B)[i]).isCheckAttempt = true → ((A ++ B)[j]).isRegAttempt = true →
      i < j := by
  intro i j hi hj hci hrj
  have hlen : (A ++ B).length = A.length + B.length := List.length_append A B
  have hiA : i < A.length := by
    by_contra hge
    push_neg at hge
    have hib : i - A.length < B.length := by omega
    have hBi : (A ++ B)[i] = B[i - A.length] := List.getElem_append_right hge
    have hf := hB _ (List.getElem_mem hib)
    rw [hBi, hf] at hci
    exact absurd hci (by simp)
  have hjB : A.length ≤ j := by
    by_contra hlt
    push_neg at hlt
    have hAj : (A ++ B)[j] = A[j] := List.getElem_append_left hlt
    have hf := hA _ (List.getElem_mem hlt)
    rw [hAj, hf] at hrj
    exact absurd hrj (by simp)
  omega

/-- One loop step issues a registration attempt exactly when its check
result is a response whose status field is "available". -/
theorem regLoopStep_regAttempt_iff (w : World) (det : List (String × String))
    (d : String) (r : Option Resp) (hmr : 0 < w.cfg.maxRetries) :
    ((regLoopStep w det d r).any Event.isRegAttempt = true ↔
      ∃ x, r = some x ∧ objGet x "status" = some "available") := by
  cases r with
  | none => simp [regLoopStep, Event.isRegAttempt]
  | some resp =>
    by_cases hav : objGet resp "status" = some "available"
    · simp only [regLoopStep, if_pos hav]
      constructor
      · intro _
        exact ⟨resp, rfl, hav⟩
      · intro _
        obtain ⟨t, ht⟩ := registerDomain_first w d det hmr
        cases hreg : (registerDomain w d det).1 with
        | ok r2 => simp [ht, Event.isRegAttempt, registerRequest]
        | error m => simp [ht, Event.isRegAttempt, registerRequest]
    · simp only [regLoopStep, if_neg hav]
      simp [Event.isRegAttempt]
      exact hav
/-- The loop issues some registration attempt exactly when some check result
is a response whose status field is "available". -/
theorem regLoop_regAttempt_iff (w : World) (det : List (String × String))
    (hmr : 0 < w.cfg.maxRetries) :
    ∀ pairs : List (String × Option Resp),
      ((regLoop w det pairs).any Event.isRegAttempt = true ↔
        ∃ p ∈ pairs, ∃ x, p.2 = some x ∧ objGet x "status" = some "available") := by
  intro pairs
  induction pairs with
  | nil => simp [regLoop]
  | cons hd tl ih =>
    rcases hd with ⟨d, r⟩
    simp only [regLoop]
    rw [List.any_append, Bool.or_eq_true, regLoopStep_regAttempt_iff w det d r hmr, ih]
    constructor
    · rintro (⟨x, hx, hxav⟩ | ⟨p, hp, hx⟩)
      · exact ⟨(d, r), List.mem_cons_self _ _, x, hx, hxav⟩
      · exact ⟨p, List.mem_cons_of_mem _ hp, hx⟩
    · rintro ⟨p, hp, x, hx, hxav⟩
      rcases List.mem_cons.mp hp with heq | hp2
      · subst heq
        exact Or.inl ⟨x, hx, hxav⟩
      · exact Or.inr ⟨p, hp2, x, hx, hxav⟩

/-- Every registration attempt of one loop step certifies its step: it can
only exist when the step's check result has status "available", and it is an
attempt of exactly the request built for the step's domain. -/
theorem regLoopStep_regAttempt_shape (w : World) (det : List (String × String))
    (d : String) (r : Option Resp) :
    ∀ e ∈ regLoopStep w det d r, e.isRegAttempt = true →
      (∃ x, r = some x ∧ objGet x "status" = some "available") ∧
      ∃ n, e = Event.attempt (registerRequest w d det) n := by
  intro e he hreg
  cases r with
  | none =>
    simp only [regLoopStep] at he
    simp at he
    subst he
    simp [Event.isRegAttempt] at hreg
  | some resp =>
    by_cases hav : objGet resp "status" = some "available"
    · refine ⟨⟨resp, rfl, hav⟩, ?_⟩
      simp only [regLoopStep, if_pos hav] at he
      have hmem : e ∈ (registerDomain w d det).2 := by
        cases hreg2 : (registerDomain w d det).1 with
        | ok r2 =>
          rw [hreg2] at he
          simp at he
          rcases he with he | he
          · exact he
          · subst he; simp [Event.isRegAttempt] at hreg
        | error m =>
          rw [hreg2] at he
          simp at he
          rcases he with he | he
          · exact he
          · subst he; simp [Event.isRegAttempt] at hreg
      rcases performRequest_events w.cfg (w.transport (registerRequest w d det))
          (registerRequest w d det) e hmem with ⟨n, rfl⟩ | ⟨n, m, rfl⟩ | ⟨m, rfl⟩ | rfl
      · exact ⟨n, rfl⟩
      · simp [Event.isRegAttempt] at hreg
      · simp [Event.isRegAttempt] at hreg
      · simp [Event.isRegAttempt] at hreg
    · simp only [regLoopStep, if_neg hav] at he
      simp at he
      subst he
      simp [Event.isRegAttempt] at hreg

/-- Every registration attempt of the loop belongs to some processed pair
whose check result has status "available", and is an attempt of exactly the
request built for that pair's domain. -/
theorem regLoop_regAttempt_shape (w : World) (det : List (String × String)) :
    ∀ pairs, ∀ e ∈ regLoop w det pairs, e.isRegAttempt = true →
      ∃ p ∈ pairs, (∃ x, p.2 = some x ∧ objGet x "status" = some "available") ∧
        ∃ n, e = Event.attempt (registerRequest w p.1 det) n := by
  intro pairs
  induction pairs with
  | nil => intro e he; simp [regLoop] at he
  | cons hd tl ih =>
    rcases hd with ⟨d, r⟩
    intro e he hreg
    simp only [regLoop] at he
    rcases List.mem_append.mp he with h | h
    · obtain ⟨hav, n, hn⟩ := regLoopStep_regAttempt_shape w det d r e h hreg
      exact ⟨(d, r), List.mem_cons_self _ _, hav, n, hn⟩
    · obtain ⟨p, hp, hrest⟩ := ih e h hreg
      exact ⟨p, List.mem_cons_of_mem _ hp, hrest⟩

/-- The check phase issues no registration attempt. -/
theorem performMultipleChecks_no_regAttempt (w : World) (domains : List String) :
    (performMultipleChecks w domains).2.any Event.isRegAttempt = false := by
  rw [List.any_eq_false]
  intro e he
  simp [(performMultipleChecks_events w domains e he).1]

/-- A fulfilled `Promise.all` has one result per input promise. -/
theorem collectAll_length :
    ∀ (xs : List (Except String (Option Resp))) (ys : List (Option Resp)),
      collectAll xs = Except.ok ys → ys.length = xs.length := by
  intro xs
  induction xs with
  | nil =>
    intro ys h
    simp only [collectAll] at h
    cases h
    rfl
  | cons hd tl ih =>
    intro ys h
    cases hd with
    | error m => simp [collectAll] at h
    | ok a =>
      simp only [collectAll] at h
      cases htl : collectAll tl with
      | error m => rw [htl] at h; cases h
      | ok as =>
        rw [htl] at h
        cases h
        simp [ih as htl]

/-- A fulfilled check phase has one result per domain, in input order. -/
theorem performMultipleChecks_length (w : World) (domains : List String)
    (results : List (Option Resp))
    (h : (performMultipleChecks w domains).1 = Except.ok results) :
    results.length = domains.length := by
  simp only [performMultipleChecks] at h
  have hl := collectAll_length _ _ h
  simpa using hl

/-- Under a fulfilled check, `registerSingleDomain` behaves like one step of
the batch loop run after the check: same decision, same logs, and a normal
return. -/
theorem registerSingleDomain_eq_step (w : World) (d : String)
    (details : List (String × String)) (r : Option Resp)
    (hchk : (checkDomainAvailability w d).1 = Except.ok r) :
    registerSingleDomain w d details =
      (Except.ok (), (checkDomainAvailability w d).2 ++ regLoopStep w details d r) := by
  cases r with
  | none =>
    simp [registerSingleDomain, registerSingleBody, regLoopStep, hchk]
  | some resp =>
    by_cases hav : objGet resp "status" = some "available"
    · cases hreg : (registerDomain w d details).1 with
      | ok r2 =>
        simp [registerSingleDomain, registerSingleBody, regLoopStep, hchk, hav, hreg,
          List.append_assoc]
      | error m =>
        simp [registerSingleDomain, registerSingleBody, regLoopStep, hchk, hav, hreg,
          List.append_assoc]
    · simp [registerSingleDomain, registerSingleBody, regLoopStep, hchk, hav]

/-! ### Claims about the batch orchestrator -/

/-- Counterexample to C3 as stated: in the batch ["a", "b"] where the check
of "a" exhausts its retries and "b" checks as available, the exhaustion is
not caught at the orchestrator level: `registerMultipleDomains` itself fails
with it, and no registration request is issued for any domain, "b"
included. -/
theorem claim3_counterexample :
    (registerMultipleDomains mixedWorld ["a", "b"] []).1 =
      Except.error "Failed after 2 retries: boom" ∧
    (registerMultipleDomains mixedWorld ["a", "b"] []).2.any Event.isRegAttempt = false :=
  ⟨rfl, rfl⟩

/-- Claim C3 (amended): an `ExhaustedRetries` failure arising in any domain's
availability check inside `registerMultipleDomains` is not caught at the
orchestrator level: the rejection of the joint check phase propagates out of
`registerMultipleDomains` unchanged, and no registration request is issued
for any domain of the batch; only failures of the registration phase are
caught per domain. -/
theorem claim3_amended_check_failure_propagates (w : World) (domains : List String)
    (details : List (String × String)) (m : String)
    (h : (performMultipleChecks w domains).1 = Except.error m) :
    (registerMultipleDomains w domains details).1 = Except.error m ∧
    (registerMultipleDomains w domains details).2.any Event.isRegAttempt = false := by
  have htr : registerMultipleDomains w domains details =
      (Except.error m, (performMultipleChecks w domains).2) := by
    simp only [registerMultipleDomains]
    rw [h]
  rw [htr]
  exact ⟨rfl, performMultipleChecks_no_regAttempt w domains⟩

/-- Witness for the amended C3 at a concrete world where the check of "a"
exhausts its retries. -/
theorem claim3_amended_check_failure_propagates_witness :
    (registerMultipleDomains mixedWorld ["a", "b"] [("years", "2")]).1 =
      Except.error "Failed after 2 retries: boom" ∧
    (registerMultipleDomains mixedWorld ["a", "b"] [("years", "2")]).2.any
      Event.isRegAttempt = false :=
  claim3_amended_check_failure_propagates mixedWorld ["a", "b"] [("years", "2")]
    "Failed after 2 retries: boom" rfl

/-- Claim C5: a domain whose availability check succeeded triggers a
registration request if and only if the check result's status field equals
"available", so a response lacking a recognized status field never does.
For `registerSingleDomain` this is the stated iff on its trace.  For
`registerMultipleDomains` over a batch whose checks all settled: the trace
is the check phase followed by the registration loop over the paired
results; the loop iteration of each domain index i issues a registration
attempt iff that domain's own result has status "available", and every such
attempt is of the request built for that domain; and every registration
attempt in the whole batch trace certifies a domain index whose own result
had status "available" — so a domain whose response lacks a status field is
never registered, even in a mixed batch. -/
theorem claim5_register_iff_available (w : World) (d : String)
    (details : List (String × String)) (resp : Resp)
    (hmr : 0 < w.cfg.maxRetries)
    (hchk : (checkDomainAvailability w d).1 = Except.ok (some resp)) :
    ((registerSingleDomain w d details).2.any Event.isRegAttempt = true ↔
      objGet resp "status" = some "available") ∧
    (∀ domains results, (performMultipleChecks w domains).1 = Except.ok results →
      ((registerMultipleDomains w domains details).2 =
        (performMultipleChecks w domains).2 ++
          regLoop w details (domains.zip results)) ∧
      (∀ i (hi : i < domains.length) (hir : i < results.length),
        ((regLoopStep w details domains[i] results[i]).any Event.isRegAttempt = true ↔
          ∃ x, results[i] = some x ∧ objGet x "status" = some "available") ∧
        (∀ e ∈ regLoopStep w details domains[i] results[i], e.isRegAttempt = true →
          ∃ n, e = Event.attempt (registerRequest w domains[i] details) n)) ∧
      (∀ e ∈ (registerMultipleDomains w domains details).2, e.isRegAttempt = true →
        ∃ i, ∃ hi : i < domains.length, ∃ hir : i < results.length, ∃ x n,
          results[i] = some x ∧ objGet x "status" = some "available" ∧
          e = Event.attempt (registerRequest w domains[i] details) n)) := by
  constructor
  · rw [registerSingleDomain_eq_step w d details (some resp) hchk]
    have hc : (checkDomainAvailability w d).2.any Event.isRegAttempt = false := by
      rw [List.any_eq_false]
      intro e he
      simp [(checkDomainAvailability_events w d e he).1]
    simp only [List.any_append, hc, Bool.false_or]
    rw [regLoopStep_regAttempt_iff w details d (some resp) hmr]
    constructor
    · rintro ⟨x, hx, hxav⟩
      cases hx
      exact hxav
    · intro hav
      exact ⟨resp, rfl, hav⟩
  · intro domains results hok
    have htr : (registerMultipleDomains w domains details).2 =
        (performMultipleChecks w domains).2 ++ regLoop w details (domains.zip results) := by
      simp only [registerMultipleDomains]
      rw [hok]
    refine ⟨htr, ?_, ?_⟩
    · intro i hi hir
      exact ⟨regLoopStep_regAttempt_iff w details domains[i] results[i] hmr,
        fun e he hreg =>
          (regLoopStep_regAttempt_shape w details domains[i] results[i] e he hreg).2⟩
    · intro e he hreg
      rw [htr] at he
      rcases List.mem_append.mp he with h | h
      · exact absurd hreg (by simp [(performMultipleChecks_events w domains e h).1])
      · obtain ⟨p, hp, hav, n, hn⟩ :=
          regLoop_regAttempt_shape w details (domains.zip results) e h hreg
        obtain ⟨j, hj, hjeq⟩ := List.mem_iff_getElem.mp hp
        have hj1 : j < domains.length := by
          rw [List.length_zip] at hj
          omega
        have hj2 : j < results.length := by
          rw [List.length_zip] at hj
          omega
        have hz : (domains.zip results)[j] = (domains[j], results[j]) := List.getElem_zip
        rw [hz] at hjeq
        subst hjeq
        obtain ⟨x, hx, hxav⟩ := hav
        exact ⟨j, hj1, hj2, x, n, hx, hxav, hn⟩

/-- Witness for C5: in a world where "a" checks as available, the single
registration path issues a registration request. -/
theorem claim5_register_iff_available_witness :
    (registerSingleDomain availWorld "a" []).2.any Event.isRegAttempt = true :=
  ((claim5_register_iff_available availWorld "a" [] [("status", "available")]
    (by decide) rfl).1).mpr rfl

/-- Claim C6: in a batch all of whose availability checks settled, (i) every
check attempt strictly precedes every registration attempt in the trace, so
no registration is issued until the whole check phase is over; (ii) in every
trace prefix at most one registration has been started and not yet settled,
so registration i+1 is not started before registration i's outcome is
settled; (iii) the settlement logs are exactly one per domain, in input-list
order, each determined by that domain's own check result. -/
theorem claim6_two_phase_sequential (w : World) (domains : List String)
    (details : List (String × String)) (results : List (Option Resp))
    (hok : (performMultipleChecks w domains).1 = Except.ok results) :
    (∀ i j (hi : i < (registerMultipleDomains w domains details).2.length)
        (hj : j < (registerMultipleDomains w domains details).2.length),
      ((registerMultipleDomains w domains details).2[i]).isCheckAttempt = true →
      ((registerMultipleDomains w domains details).2[j]).isRegAttempt = true →
      i < j) ∧
    (∀ n, (((registerMultipleDomains w domains details).2.take n).countP
        Event.isRegStart) ≤
      (((registerMultipleDomains w domains details).2.take n).countP
        Event.isSettleLog) + 1) ∧
    ((registerMultipleDomains w domains details).2.filter Event.isSettleLog =
      (domains.zip results).map (fun p => settleEventFor w details p.1 p.2)) := by
  have htr : (registerMultipleDomains w domains details).2 =
      (performMultipleChecks w domains).2 ++ regLoop w details (domains.zip results) := by
    simp only [registerMultipleDomains]
    rw [hok]
  rw [htr]
  refine ⟨two_phase_order (performMultipleChecks w domains).2
      (regLoop w details (domains.zip results))
      (fun e he => (performMultipleChecks_events w domains e he).1)
      (regLoop_no_checkAttempt w details (domains.zip results)), ?_, ?_⟩
  · intro n
    rw [List.take_append_eq_append_take, List.countP_append, List.countP_append]
    have hA : (((performMultipleChecks w domains).2.take n).countP Event.isRegStart) = 0 := by
      rw [List.countP_eq_zero]
      intro e he
      have hm := (List.take_sublist n (performMultipleChecks w domains).2).subset he
      simp [(performMultipleChecks_events w domains e hm).2.1]
    have hB := regLoop_prefix_invariant w details (domains.zip results)
      (n - (performMultipleChecks w domains).2.length)
    omega
  · rw [List.filter_append]
    have hA : (performMultipleChecks w domains).2.filter Event.isSettleLog = [] := by
      rw [List.filter_eq_nil_iff]
      intro e he
      simp [(performMultipleChecks_events w domains e he).2.2]
    rw [hA, regLoop_filter_settle w details (domains.zip results)]
    rfl

/-- Witness for C6: in a concrete two-domain batch, any prefix of the trace
has started at most one more registration than it has settled. -/
theorem claim6_two_phase_sequential_witness :
    (((registerMultipleDomains availWorld ["a", "b"] []).2.take 3).countP
      Event.isRegStart) ≤
    (((registerMultipleDomains availWorld ["a", "b"] []).2.take 3).countP
      Event.isSettleLog) + 1 :=
  (claim6_two_phase_sequential availWorld ["a", "b"] []
    [some [("status", "available")], some [("status", "unavailable")]] rfl).2.1 3

end RegBot
